import Mathlib

/-!
# Verification of the auto-close-tabs inactivity eviction engine

Shallow embedding of the plugin's core: the activity tracker, the sweep
engine (`checkAndCloseInactiveTabsWithResult` in `src/utils/tabManager.ts`,
newest revision), the bounded history log with durable mirroring
(`HistoryManager` in `src/utils/historyManager.ts`, newest revision), and the
settings-boundary handlers (`settingsTab.ts`).

Modelling conventions:
* JS timestamps (`Date.now()`) and millisecond durations are `Int`; `now` is
  passed explicitly, one logical instant per sweep.
* The `WeakMap<WorkspaceLeaf, number>` activity map is `AMap : Nat → Option Int`
  keyed by an opaque pane identity.
* JS truthiness of `lastActivity` (`if (!lastActivity)`) treats both a missing
  record and a stored `0` as "untracked"; the embedding keeps that exactly.
* Fallible host operations (vault create/append, `leaf.detach()`) are driven
  by explicit environment records holding each call's outcome, so the
  control flow around failures is the part taken from the source.
* The source stores `inactiveTimeMinutes = inactiveTime / 60000` (a float);
  the embedding carries the exact millisecond numerator `inactiveTimeMs` and
  leaves the division to the (abstract) rendering functions, avoiding
  floating point.
* Locale-dependent rendering (`toLocaleDateString`, `toLocaleTimeString`,
  `toLocaleString`, `toFixed`) is a record of abstract pure functions.
-/

namespace AutoCloseTabs

/-- Pane-id ↦ last-activity instant (ms).  Models lookups on the source's
`leafActivityMap : WeakMap<WorkspaceLeaf, number>`; `none` means the pane has
no record. -/
def AMap : Type := Nat → Option Int

/-- `leafActivityMap.set(leaf, v)`. -/
def AMap.set (m : AMap) (id0 : Nat) (v : Int) : AMap :=
  fun j => if j = id0 then some v else m j

/-- A root-split workspace leaf as the sweep engine observes it: opaque
identity, `viewState.pinned`, the display name `getLeafName` computes, the
file path `getLeafFile(...)?.path`, and an environment flag telling whether
the host's `leaf.detach()` call raises for this pane. -/
structure Leaf where
  id : Nat
  pinned : Bool
  fileName : String
  filePath : Option String
  detachFails : Bool
deriving DecidableEq

/-- `ClosedTabEntry` from `settings.ts`.  `inactiveTimeMs` carries the exact
millisecond inactivity (the source stores `inactiveTime / 60000` as a float;
rendering divides). -/
structure ClosedTabEntry where
  timestamp : Int
  fileName : String
  inactiveTimeMs : Int
  filePath : Option String
deriving DecidableEq

/-- `AutoCloseTabsSettings` from `settings.ts`. -/
structure AutoCloseTabsSettings where
  enabled : Bool
  inactiveTimeoutMinutes : Int
  checkIntervalSeconds : Int
  logHistory : Bool
  logToFile : Bool
  logFilePath : String
  maxHistoryEntries : Nat
deriving DecidableEq

/-- `DEFAULT_SETTINGS` from `settings.ts`. -/
def DEFAULT_SETTINGS : AutoCloseTabsSettings :=
  { enabled := true
    inactiveTimeoutMinutes := 1440
    checkIntervalSeconds := 60
    logHistory := true
    logToFile := false
    logFilePath := "system/auto-close-tabs-history.md"
    maxHistoryEntries := 1000 }

/-- The locale/environment functions the source uses to render instants and
durations (`toLocaleDateString`, `toLocaleTimeString`, `toLocaleString`,
`(ms / 60000).toFixed(1)`, and `new Date(s).getTime()` for date-key sorting).
They are abstract but fixed pure functions. -/
structure Locale where
  fmtDate : Int → String
  fmtTime : Int → String
  fmtDateTime : Int → String
  fmtMinutes : Int → String
  parseDate : String → Int

/-- A trivial concrete locale, used to run the model on concrete inputs. -/
def trivLocale : Locale :=
  { fmtDate := fun t => toString t
    fmtTime := fun t => toString t
    fmtDateTime := fun t => toString t
    fmtMinutes := fun t => toString t
    parseDate := fun _ => 0 }

/-- Does `text` start with `pat`? (helper for `strIncludes`). -/
def charsStartWith : List Char → List Char → Bool
  | [], _ => true
  | _ :: _, [] => false
  | c :: cs, d :: ds => c == d && charsStartWith cs ds

/-- Does `pat` occur somewhere in the text? (helper for `strIncludes`). -/
def charsContain (pat : List Char) : List Char → Bool
  | [] => charsStartWith pat []
  | d :: ds => charsStartWith pat (d :: ds) || charsContain pat ds

/-- JS `message.includes(pat)` (substring containment test). -/
def strIncludes (s pat : String) : Bool :=
  charsContain pat.data s.data

/-! ## Durable mirror (`writeToFile` in `historyManager.ts`) -/

/-- Observable effects on the durable mirror file. -/
inductive MirrorEv where
  | appended (line : String)
  | created (content : String)
  | folderCreated
deriving DecidableEq

/-- Outcomes of the fallible host/vault calls `writeToFile` makes, in the
order the code can make them.  Errors are their JS `message` strings.  The
race of the spec is the combination `existsAtLookup = false` with
`createResult` failing with an "already exists" message. -/
structure WriteEnv where
  existsAtLookup : Bool
  appendResult : Except String Unit
  pathHasFolder : Bool
  folderExists : Bool
  createFolderResult : Except String Unit
  createResult : Except String Unit
  relookupFinds : Bool
  appendAfterRaceResult : Except String Unit

/-- An environment in which every host call succeeds and the file already
exists; used to run the model on concrete inputs. -/
def okWriteEnv : WriteEnv :=
  { existsAtLookup := true
    appendResult := Except.ok ()
    pathHasFolder := true
    folderExists := true
    createFolderResult := Except.ok ()
    createResult := Except.ok ()
    relookupFinds := true
    appendAfterRaceResult := Except.ok () }

/-- The race environment of the spec: the initial existence check misses the
file, creation then fails because a concurrent creator made it appear, and
the fallback re-lookup and append succeed. -/
def raceEnv : WriteEnv :=
  { existsAtLookup := false
    appendResult := Except.ok ()
    pathHasFolder := false
    folderExists := false
    createFolderResult := Except.ok ()
    createResult := Except.error "File already exists"
    relookupFinds := true
    appendAfterRaceResult := Except.ok () }

/-- The single rendered history line `writeToFile` builds from an entry. -/
def renderLine (loc : Locale) (e : ClosedTabEntry) : String :=
  "- `" ++ loc.fmtDateTime e.timestamp ++ "` - **" ++ e.fileName
    ++ "** (inactive for " ++ loc.fmtMinutes e.inactiveTimeMs ++ " minutes)"
    ++ (match e.filePath with
        | some p => " - `" ++ p ++ "`"
        | none => "")
    ++ "\n"

/-- The fixed header `writeToFile` puts at the top of a freshly created log
file. -/
def mirrorHeader : String :=
  "# Auto-Close Tabs Log\n\nThis file logs tabs that have been automatically closed by the Auto Close Tabs plugin.\n\n---\n\n"

/-- Body of `writeToFile` (everything inside the outer `try`), returning the
mirror effects that happened plus the error, if any, that reaches the outer
`catch`.  Faithful to the source's control flow: append to an existing file;
otherwise best-effort folder creation (its failures are only logged), then
create-with-header, and on an "already exists" creation failure re-look-up
and append instead; any other creation error is rethrown. -/
def writeToFileBody (env : WriteEnv) (line content : String) :
    List MirrorEv × Option String :=
  if env.existsAtLookup then
    match env.appendResult with
    | Except.ok _ => ([MirrorEv.appended line], none)
    | Except.error e => ([], some e)
  else
    let folderEvs : List MirrorEv :=
      if env.pathHasFolder && !env.folderExists then
        match env.createFolderResult with
        | Except.ok _ => [MirrorEv.folderCreated]
        | Except.error _ => []
      else []
    match env.createResult with
    | Except.ok _ => (folderEvs ++ [MirrorEv.created content], none)
    | Except.error e =>
      if strIncludes e "already exists" then
        if env.relookupFinds then
          match env.appendAfterRaceResult with
          | Except.ok _ => (folderEvs ++ [MirrorEv.appended line], none)
          | Except.error e2 => (folderEvs, some e2)
        else (folderEvs, none)
      else (folderEvs, some e)

/-- `writeToFile`: the outer `catch` swallows whatever error escapes the
body (it is only logged to the console), so the call always returns, keeping
the effects that happened before the error. -/
def writeToFile (env : WriteEnv) (line content : String) : List MirrorEv :=
  (writeToFileBody env line content).1

/-! ## In-memory history (`HistoryManager`) -/

/-- HistoryManager state: the in-memory `history` array, the
`closedTabsHistory` array last persisted through `saveData`, and the
accumulated durable-mirror effects. -/
structure HState where
  history : List ClosedTabEntry
  savedHistory : Option (List ClosedTabEntry)
  mirror : List MirrorEv
deriving DecidableEq

/-- A fresh manager: `history = []`, nothing persisted, no mirror writes. -/
def initialHState : HState :=
  { history := [], savedHistory := none, mirror := [] }

/-- JS `arr.slice(-k)`: the last `k` elements — except that `slice(-0)` is
`slice(0)`, the whole array. -/
def jsSliceLast {α : Type} (l : List α) (k : Nat) : List α :=
  if k = 0 then l else l.drop (l.length - k)

/-- The trim step both `addEntry` and `saveHistory` perform:
`if (history.length > maxEntries) history = history.slice(-maxEntries)`. -/
def trimHistory (maxE : Nat) (h : List ClosedTabEntry) : List ClosedTabEntry :=
  if maxE < h.length then jsSliceLast h maxE else h

/-- `saveHistory()`: no-op when `logHistory` is off; otherwise trim and
persist the (trimmed) history via `saveData`. -/
def saveHistory (s : AutoCloseTabsSettings) (st : HState) : HState :=
  if s.logHistory = false then st
  else
    let h := trimHistory s.maxHistoryEntries st.history
    { st with history := h, savedHistory := some h }

/-- `addEntry(entry)`: discard when `logHistory` is off; otherwise push,
trim, persist via `saveHistory`, and when `logToFile` is on run the durable
mirror step. -/
def addEntry (s : AutoCloseTabsSettings) (loc : Locale) (wenv : WriteEnv)
    (e : ClosedTabEntry) (st : HState) : HState :=
  if s.logHistory = false then st
  else
    let st1 : HState := { st with history := trimHistory s.maxHistoryEntries (st.history ++ [e]) }
    let st2 := saveHistory s st1
    if s.logToFile then
      { st2 with
          mirror := st2.mirror ++
            writeToFile wenv (renderLine loc e) (mirrorHeader ++ renderLine loc e) }
    else st2

/-- `getHistory()`: a reversed copy (most recent first); storage untouched. -/
def getHistory (st : HState) : List ClosedTabEntry :=
  st.history.reverse

/-- A sequence of `addEntry` calls, oldest first. -/
def appendAll (s : AutoCloseTabsSettings) (loc : Locale) (wenv : WriteEnv)
    (es : List ClosedTabEntry) (st : HState) : HState :=
  es.foldl (fun st0 e => addEntry s loc wenv e st0) st

/-! ## `exportHistory` (newest revision: operates on a copy of the array) -/

/-- One step of the `grouped[date].push(entry)` accumulation, preserving the
first-seen order of date keys like a JS object with string keys. -/
def insertGroup (loc : Locale) (acc : List (String × List ClosedTabEntry))
    (e : ClosedTabEntry) : List (String × List ClosedTabEntry) :=
  let d := loc.fmtDate e.timestamp
  if acc.any (fun p => p.1 == d) then
    acc.map (fun p => if p.1 == d then (p.1, p.2 ++ [e]) else p)
  else acc ++ [(d, [e])]

/-- Stable descending insertion for the date-key sort. -/
def insertDescBy (key : String × List ClosedTabEntry → Int)
    (x : String × List ClosedTabEntry) :
    List (String × List ClosedTabEntry) → List (String × List ClosedTabEntry)
  | [] => [x]
  | y :: ys => if key y < key x then x :: y :: ys else y :: insertDescBy key x ys

/-- Stable sort, largest key first: models the JS stable
`dates.sort((a, b) => parse(b) - parse(a))`. -/
def sortDescBy (key : String × List ClosedTabEntry → Int)
    (l : List (String × List ClosedTabEntry)) :
    List (String × List ClosedTabEntry) :=
  l.foldr (insertDescBy key) []

/-- One rendered line of the export (backtick time, bold name, fractional
minutes, optional path). -/
def renderEntryLine (loc : Locale) (e : ClosedTabEntry) : String :=
  "- `" ++ loc.fmtTime e.timestamp ++ "` - **" ++ e.fileName
    ++ "** (inactive for " ++ loc.fmtMinutes e.inactiveTimeMs ++ " minutes)"
    ++ (match e.filePath with
        | some p => " - `" ++ p ++ "`"
        | none => "")
    ++ "\n"

/-- `exportHistory()` as a pure function of the stored entry sequence: the
newest revision iterates `[...this.history].reverse()` (a copy), groups by
rendered calendar date in first-seen order, sorts the date keys most recent
first, and renders each group. -/
def exportHistoryStr (loc : Locale) (h : List ClosedTabEntry) : String :=
  if h.length = 0 then "No closed tabs history."
  else
    let head := "# Auto-Close Tabs History\n\n" ++ "Total entries: "
      ++ toString h.length ++ "\n\n" ++ "---\n\n"
    let grouped := h.reverse.foldl (insertGroup loc) []
    let sorted := sortDescBy (fun p => loc.parseDate p.1) grouped
    sorted.foldl
      (fun out p =>
        out ++ "## " ++ p.1 ++ "\n\n"
          ++ p.2.foldl (fun o e => o ++ renderEntryLine loc e) ""
          ++ "\n")
      head

/-- The `exportHistory()` method call as a state transition: it reads the
history through a copy, so the state component is returned unchanged. -/
def exportHistoryRun (loc : Locale) (st : HState) : HState × String :=
  (st, exportHistoryStr loc st.history)

/-! ## Sweep engine (`checkAndCloseInactiveTabsWithResult`) -/

/-- The body of the `iterateRootLeaves` callback: skip pinned panes, skip the
active pane, seed untracked panes (JS-falsy record: absent or `0`) to `now`,
and push panes with `now - lastActivity >= inactiveTimeoutMs` onto
`leavesToClose` together with their inactive time. -/
def scanLeaf (now timeoutMs : Int) (activeId : Option Nat)
    (acc : AMap × List (Leaf × Int)) (leaf : Leaf) : AMap × List (Leaf × Int) :=
  if leaf.pinned then acc
  else if some leaf.id = activeId then acc
  else
    match acc.1 leaf.id with
    | none => (acc.1.set leaf.id now, acc.2)
    | some la =>
      if la = 0 then (acc.1.set leaf.id now, acc.2)
      else if timeoutMs ≤ now - la then (acc.1, acc.2 ++ [(leaf, now - la)])
      else acc

/-- Phase 1 of a sweep: the classification pass over all root leaves,
returning the updated activity map and `leavesToClose` in enumeration
order. -/
def sweepScan (now timeoutMs : Int) (activeId : Option Nat)
    (leaves : List Leaf) (m : AMap) : AMap × List (Leaf × Int) :=
  leaves.foldl (scanLeaf now timeoutMs activeId) (m, [])

/-- The `ClosedTabEntry` built for an evicted pane. -/
def mkEntry (now : Int) (l : Leaf) (inactive : Int) : ClosedTabEntry :=
  { timestamp := now
    fileName := l.fileName
    inactiveTimeMs := inactive
    filePath := l.filePath }

/-- Phase 2 of a sweep: `for (const { leaf, inactiveTime, fileName } of
leavesToClose) { await addEntry(...); closedTabs.push(...); leaf.detach(); }`.
There is no per-pane exception handling in the source: a raising `detach()`
propagates out of the loop, aborting the remaining iterations.  Returns the
history state, the panes actually detached, and the escaping error if any. -/
def closeLoop (s : AutoCloseTabsSettings) (loc : Locale) (wenv : WriteEnv)
    (now : Int) :
    List (Leaf × Int) → HState → List Leaf → HState × List Leaf × Option String
  | [], st, det => (st, det, none)
  | (l, t) :: rest, st, det =>
    let st1 := addEntry s loc wenv (mkEntry now l t) st
    if l.detachFails then (st1, det, some "detach failed")
    else closeLoop s loc wenv now rest st1 (det ++ [l])

/-- Result of one sweep. -/
structure SweepResult where
  amap : AMap
  hstate : HState
  detached : List Leaf
  err : Option String

/-- `checkAndCloseInactiveTabsWithResult(inactiveTimeoutMs)`: no-op when the
plugin is disabled; otherwise the classification pass followed by the
eviction loop. -/
def checkAndCloseInactiveTabsWithResult (s : AutoCloseTabsSettings)
    (loc : Locale) (wenv : WriteEnv) (now timeoutMs : Int)
    (activeId : Option Nat) (leaves : List Leaf) (m : AMap) (st : HState) :
    SweepResult :=
  if s.enabled = false then ⟨m, st, [], none⟩
  else
    let scanned := sweepScan now timeoutMs activeId leaves m
    let closed := closeLoop s loc wenv now scanned.2 st []
    ⟨scanned.1, closed.1, closed.2.1, closed.2.2⟩

/-! ## Tracking bootstrap and the periodic schedule -/

/-- `initializeLeafTracking()`: seed `now` for every enumerated root leaf
that has no record yet (`if (!this.leafActivityMap.has(leaf))` — a presence
check, so existing records are never overwritten). -/
def initLeafTracking (now : Int) (leaves : List Leaf) (m : AMap) : AMap :=
  leaves.foldl
    (fun m0 l =>
      match m0 l.id with
      | some _ => m0
      | none => m0.set l.id now)
    m

/-- A live `setInterval` timer: its host id, its period, and the
`inactiveTimeoutMs` value captured by the sweep closure when the timer was
created. -/
structure Timer where
  id : Nat
  intervalMs : Int
  timeoutMs : Int
deriving DecidableEq

/-- The host's timer table plus a fresh-id counter. -/
structure Sched where
  nextId : Nat
  timers : List Timer
deriving DecidableEq

/-- The TabManager's own scheduling state: the registered interval id. -/
structure TMState where
  checkInterval : Option Nat
deriving DecidableEq

/-- `stop()`: clear the running interval, if any. -/
def tmStop (tm : TMState) (w : Sched) : TMState × Sched :=
  match tm.checkInterval with
  | some cid => (⟨none⟩, ⟨w.nextId, w.timers.filter (fun t => t.id != cid)⟩)
  | none => (tm, w)

/-- `startPeriodicCheck()`: nothing when disabled; otherwise create a new
interval timer whose closure captures the current
`checkIntervalSeconds * 1000` and `inactiveTimeoutMinutes * 60 * 1000`. -/
def startPeriodicCheck (s : AutoCloseTabsSettings) (tm : TMState) (w : Sched) :
    TMState × Sched :=
  if s.enabled = false then (tm, w)
  else
    (⟨some w.nextId⟩,
      ⟨w.nextId + 1,
        w.timers ++ [⟨w.nextId, s.checkIntervalSeconds * 1000,
          s.inactiveTimeoutMinutes * 60 * 1000⟩]⟩)

/-- `start()` (the parts with model-visible state): seed tracking for
untracked leaves, then start the periodic check. -/
def tmStart (s : AutoCloseTabsSettings) (now : Int) (leaves : List Leaf)
    (m : AMap) (tm : TMState) (w : Sched) : AMap × TMState × Sched :=
  let m1 := initLeafTracking now leaves m
  let sw := startPeriodicCheck s tm w
  (m1, sw.1, sw.2)

/-- `updateSettings()`: `stop()` then `start()`. -/
def updateSettings (s : AutoCloseTabsSettings) (now : Int) (leaves : List Leaf)
    (m : AMap) (tm : TMState) (w : Sched) : AMap × TMState × Sched :=
  let sw := tmStop tm w
  tmStart s now leaves m sw.1 sw.2

/-! ## Settings-boundary handlers (`settingsTab.ts`)

Each handler takes the parsed numeric value of the text field as
`Option Int` (the result of `Number.parseInt(value, 10)`, `none` for NaN);
`saveSettings()` only persists and is outside the model. -/

/-- The "Enable auto-close" toggle handler: set, persist, and restart via
`updateSettings()`. -/
def onEnabledChange (v : Bool) (now : Int) (leaves : List Leaf)
    (s : AutoCloseTabsSettings) (m : AMap) (tm : TMState) (w : Sched) :
    AutoCloseTabsSettings × AMap × TMState × Sched :=
  let s1 := { s with enabled := v }
  let r := updateSettings s1 now leaves m tm w
  (s1, r)

/-- The "Inactive timeout (minutes)" text handler: on a valid positive
number it sets the field and persists — and does nothing else (in the
source, unlike the other two handlers, it does not call
`updateSettings()`). -/
def onTimeoutChange (numValue : Option Int) (now : Int) (leaves : List Leaf)
    (s : AutoCloseTabsSettings) (m : AMap) (tm : TMState) (w : Sched) :
    AutoCloseTabsSettings × AMap × TMState × Sched :=
  match numValue with
  | some v =>
    if 0 < v then ({ s with inactiveTimeoutMinutes := v }, m, tm, w)
    else (s, m, tm, w)
  | none => (s, m, tm, w)

/-- The "Check interval (seconds)" text handler: on a valid positive number
it sets the field, persists, and restarts via `updateSettings()`. -/
def onIntervalChange (numValue : Option Int) (now : Int) (leaves : List Leaf)
    (s : AutoCloseTabsSettings) (m : AMap) (tm : TMState) (w : Sched) :
    AutoCloseTabsSettings × AMap × TMState × Sched :=
  match numValue with
  | some v =>
    if 0 < v then
      let s1 := { s with checkIntervalSeconds := v }
      let r := updateSettings s1 now leaves m tm w
      (s1, r)
    else (s, m, tm, w)
  | none => (s, m, tm, w)

/-- Concrete boundary scenario: a freshly started manager under default
settings (enabled, timeout 1440 min, interval 60 s) with its periodic timer
registered. -/
def timeoutChangeStart : AMap × TMState × Sched :=
  tmStart DEFAULT_SETTINGS 0 [] (fun _ => none) ⟨none⟩ ⟨0, []⟩

/-- The same scenario immediately after the user types `5` into the
"Inactive timeout (minutes)" field. -/
def timeoutChangeAfter : AutoCloseTabsSettings × AMap × TMState × Sched :=
  onTimeoutChange (some 5) 0 [] DEFAULT_SETTINGS
    timeoutChangeStart.1 timeoutChangeStart.2.1 timeoutChangeStart.2.2

/-! ## History-log lemmas -/

lemma trimHistory_eq_drop {maxE : Nat} (hmax : 0 < maxE) (h : List ClosedTabEntry) :
    trimHistory maxE h = h.drop (h.length - maxE) := by
  unfold trimHistory jsSliceLast
  split
  · rw [if_neg (by omega : ¬ maxE = 0)]
  · have h0 : h.length - maxE = 0 := by omega
    rw [h0, List.drop_zero]

lemma trimHistory_length {maxE : Nat} (hmax : 0 < maxE) (h : List ClosedTabEntry) :
    (trimHistory maxE h).length = min h.length maxE := by
  rw [trimHistory_eq_drop hmax, List.length_drop]
  omega

lemma trimHistory_of_le {maxE : Nat} {h : List ClosedTabEntry}
    (hle : h.length ≤ maxE) : trimHistory maxE h = h := by
  unfold trimHistory
  rw [if_neg (by omega)]

lemma trimHistory_trim {maxE : Nat} (hmax : 0 < maxE) (h : List ClosedTabEntry) :
    trimHistory maxE (trimHistory maxE h) = trimHistory maxE h :=
  trimHistory_of_le (by rw [trimHistory_length hmax]; omega)

lemma addEntry_noop {s : AutoCloseTabsSettings} (loc : Locale) (wenv : WriteEnv)
    (e : ClosedTabEntry) (st : HState) (h : s.logHistory = false) :
    addEntry s loc wenv e st = st := by
  simp [addEntry, h]

lemma addEntry_history {s : AutoCloseTabsSettings} (loc : Locale) (wenv : WriteEnv)
    (e : ClosedTabEntry) (st : HState)
    (hlog : s.logHistory = true) (hmax : 0 < s.maxHistoryEntries) :
    (addEntry s loc wenv e st).history
      = (st.history ++ [e]).drop ((st.history.length + 1) - s.maxHistoryEntries) := by
  have ha : ¬ s.logHistory = false := by rw [hlog]; simp
  have key : trimHistory s.maxHistoryEntries (trimHistory s.maxHistoryEntries (st.history ++ [e]))
      = (st.history ++ [e]).drop ((st.history.length + 1) - s.maxHistoryEntries) := by
    rw [trimHistory_trim hmax, trimHistory_eq_drop hmax, List.length_append,
      List.length_singleton]
  simp only [addEntry, saveHistory, if_neg ha]
  split <;> simpa using key

lemma appendAll_history {s : AutoCloseTabsSettings} (loc : Locale) (wenv : WriteEnv)
    (hlog : s.logHistory = true) (hmax : 0 < s.maxHistoryEntries) :
    ∀ (es : List ClosedTabEntry) (st : HState),
      st.history.length ≤ s.maxHistoryEntries →
      (appendAll s loc wenv es st).history
        = (st.history ++ es).drop ((st.history.length + es.length) - s.maxHistoryEntries) := by
  intro es
  induction es with
  | nil =>
    intro st hst
    have h0 : st.history.length - s.maxHistoryEntries = 0 := by omega
    simp [appendAll, h0]
  | cons e rest ih =>
    intro st hst
    have hstep : appendAll s loc wenv (e :: rest) st
        = appendAll s loc wenv rest (addEntry s loc wenv e st) := by
      simp [appendAll]
    have hAE := addEntry_history loc wenv e st hlog hmax
    have hlen1 : (addEntry s loc wenv e st).history.length ≤ s.maxHistoryEntries := by
      rw [hAE, List.length_drop, List.length_append, List.length_singleton]
      omega
    rw [hstep, ih _ hlen1, hAE]
    rw [List.length_drop, List.length_append, List.length_singleton]
    have hle : (st.history.length + 1) - s.maxHistoryEntries ≤ (st.history ++ [e]).length := by
      rw [List.length_append, List.length_singleton]; omega
    rw [← List.drop_append_of_le_length hle, List.drop_drop]
    have hassoc : st.history ++ [e] ++ rest = st.history ++ e :: rest := by
      simp
    rw [hassoc]
    have hidx : st.history.length + 1 - s.maxHistoryEntries
          + (st.history.length + 1 - (st.history.length + 1 - s.maxHistoryEntries)
              + rest.length - s.maxHistoryEntries)
        = st.history.length + (e :: rest).length - s.maxHistoryEntries := by
      simp only [List.length_cons]
      omega
    rw [hidx]

lemma appendAll_noop {s : AutoCloseTabsSettings} (loc : Locale) (wenv : WriteEnv)
    (h : s.logHistory = false) :
    ∀ (es : List ClosedTabEntry) (st : HState), appendAll s loc wenv es st = st := by
  intro es
  induction es with
  | nil => intro st; simp [appendAll]
  | cons e rest ih =>
    intro st
    have hstep : appendAll s loc wenv (e :: rest) st
        = appendAll s loc wenv rest (addEntry s loc wenv e st) := by
      simp [appendAll]
    rw [hstep, addEntry_noop loc wenv e st h, ih]

/-! ## Eviction-loop lemmas -/

lemma closeLoop_ok (s : AutoCloseTabsSettings) (loc : Locale) (wenv : WriteEnv)
    (now : Int) :
    ∀ (lst : List (Leaf × Int)) (st : HState) (det : List Leaf),
      (∀ x ∈ lst, x.1.detachFails = false) →
      closeLoop s loc wenv now lst st det
        = (appendAll s loc wenv (lst.map (fun x => mkEntry now x.1 x.2)) st,
            det ++ lst.map Prod.fst, none) := by
  intro lst
  induction lst with
  | nil => intro st det _; simp [closeLoop, appendAll]
  | cons x rest ih =>
    intro st det hok
    obtain ⟨l, t⟩ := x
    have hl : l.detachFails = false := hok (l, t) (List.mem_cons_self _ _)
    have hrest : ∀ x ∈ rest, x.1.detachFails = false :=
      fun x hx => hok x (List.mem_cons_of_mem _ hx)
    simp only [closeLoop, hl, if_neg (by simp : ¬ (false = true))]
    rw [ih _ _ hrest]
    simp [appendAll]

lemma closeLoop_det_mem (s : AutoCloseTabsSettings) (loc : Locale) (wenv : WriteEnv)
    (now : Int) :
    ∀ (lst : List (Leaf × Int)) (st : HState) (det : List Leaf) (l : Leaf),
      l ∈ (closeLoop s loc wenv now lst st det).2.1 →
      l ∈ det ∨ ∃ t, (l, t) ∈ lst := by
  intro lst
  induction lst with
  | nil => intro st det l hl; exact Or.inl (by simpa [closeLoop] using hl)
  | cons x rest ih =>
    intro st det l hl
    obtain ⟨l0, t0⟩ := x
    by_cases hd : l0.detachFails = true
    · simp only [closeLoop, hd, if_pos rfl] at hl
      exact Or.inl hl
    · have hd' : l0.detachFails = false := by
        cases h : l0.detachFails
        · rfl
        · exact absurd h hd
      simp only [closeLoop, hd', if_neg (by simp : ¬ (false = true))] at hl
      rcases ih _ _ _ hl with hmem | ⟨t, ht⟩
      · rcases List.mem_append.mp hmem with h1 | h2
        · exact Or.inl h1
        · have : l = l0 := by simpa using h2
          exact Or.inr ⟨t0, by rw [this]; exact List.mem_cons_self _ _⟩
      · exact Or.inr ⟨t, List.mem_cons_of_mem _ ht⟩

/-! ## Sweep-scan lemmas -/

lemma scanLeaf_fst_of_ne {now timeoutMs : Int} {activeId : Option Nat}
    (p : AMap × List (Leaf × Int)) (l : Leaf) {j : Nat} (hj : j ≠ l.id) :
    (scanLeaf now timeoutMs activeId p l).1 j = p.1 j := by
  unfold scanLeaf
  split
  · rfl
  · split
    · rfl
    · split
      · simp [AMap.set, hj]
      · split
        · simp [AMap.set, hj]
        · split
          · rfl
          · rfl

lemma scanLeaf_snd_cases {now timeoutMs : Int} {activeId : Option Nat}
    (p : AMap × List (Leaf × Int)) (l : Leaf) :
    (scanLeaf now timeoutMs activeId p l).2 = p.2
    ∨ ∃ t, (scanLeaf now timeoutMs activeId p l).2 = p.2 ++ [(l, t)] := by
  unfold scanLeaf
  split
  · exact Or.inl rfl
  · split
    · exact Or.inl rfl
    · split
      · exact Or.inl rfl
      · split
        · exact Or.inl rfl
        · split
          · exact Or.inr ⟨_, rfl⟩
          · exact Or.inl rfl

lemma scanLeaf_mem_cases {now timeoutMs : Int} {activeId : Option Nat}
    (p : AMap × List (Leaf × Int)) (l : Leaf) (x : Leaf × Int)
    (hx : x ∈ (scanLeaf now timeoutMs activeId p l).2) :
    x ∈ p.2 ∨ (x.1 = l ∧ l.pinned = false ∧ some l.id ≠ activeId) := by
  unfold scanLeaf at hx
  split at hx
  · exact Or.inl hx
  · rename_i hpin
    split at hx
    · exact Or.inl hx
    · rename_i hact
      split at hx
      · exact Or.inl hx
      · rename_i xv lav heq
        split at hx
        · exact Or.inl hx
        · rename_i h0
          split at hx
          · rcases List.mem_append.mp hx with h1 | h2
            · exact Or.inl h1
            · refine Or.inr ⟨?_, ?_, hact⟩
              · have := List.mem_singleton.mp h2
                exact congrArg Prod.fst this
              · cases hp : l.pinned
                · rfl
                · exact absurd hp hpin
          · exact Or.inl hx

lemma scan_acc_mono (now timeoutMs : Int) (activeId : Option Nat) :
    ∀ (leaves : List Leaf) (p : AMap × List (Leaf × Int)) (x : Leaf × Int),
      x ∈ p.2 → x ∈ (leaves.foldl (scanLeaf now timeoutMs activeId) p).2 := by
  intro leaves
  induction leaves with
  | nil => intro p x hx; simpa using hx
  | cons l ls ih =>
    intro p x hx
    simp only [List.foldl_cons]
    apply ih
    rcases @scanLeaf_snd_cases now timeoutMs activeId p l with h | ⟨t, h⟩
    · rw [h]; exact hx
    · rw [h]; exact List.mem_append_left _ hx

lemma scan_mem_cases (now timeoutMs : Int) (activeId : Option Nat) :
    ∀ (leaves : List Leaf) (p : AMap × List (Leaf × Int)) (x : Leaf × Int),
      x ∈ (leaves.foldl (scanLeaf now timeoutMs activeId) p).2 →
      x ∈ p.2 ∨ (x.1 ∈ leaves ∧ x.1.pinned = false ∧ some x.1.id ≠ activeId) := by
  intro leaves
  induction leaves with
  | nil => intro p x hx; exact Or.inl (by simpa using hx)
  | cons l ls ih =>
    intro p x hx
    simp only [List.foldl_cons] at hx
    rcases ih _ _ hx with h1 | ⟨hm, hp, ha⟩
    · rcases scanLeaf_mem_cases p l x h1 with h2 | ⟨he, hp, ha⟩
      · exact Or.inl h2
      · exact Or.inr ⟨by rw [he]; exact List.mem_cons_self _ _,
          by rw [he]; exact hp, by rw [he]; exact ha⟩
    · exact Or.inr ⟨List.mem_cons_of_mem _ hm, hp, ha⟩

lemma scan_map_agree (now timeoutMs : Int) (activeId : Option Nat) :
    ∀ (leaves : List Leaf) (p : AMap × List (Leaf × Int)) (j : Nat),
      j ∉ leaves.map Leaf.id →
      (leaves.foldl (scanLeaf now timeoutMs activeId) p).1 j = p.1 j := by
  intro leaves
  induction leaves with
  | nil => intro p j _; rfl
  | cons l ls ih =>
    intro p j hj
    have hj1 : j ≠ l.id := by
      intro h
      exact hj (by rw [List.map_cons, h]; exact List.mem_cons_self _ _)
    have hj2 : j ∉ ls.map Leaf.id := fun h => hj (by rw [List.map_cons]; exact List.mem_cons_of_mem _ h)
    simp only [List.foldl_cons]
    rw [ih _ j hj2]
    exact scanLeaf_fst_of_ne p l hj1

lemma scan_mem_iff (now timeoutMs la : Int) (activeId : Option Nat) (leaf : Leaf)
    (hpin : leaf.pinned = false) (hact : some leaf.id ≠ activeId) (hla0 : ¬ la = 0) :
    ∀ (leaves : List Leaf) (m : AMap) (acc : List (Leaf × Int)),
      (leaves.map Leaf.id).Nodup → leaf ∈ leaves → m leaf.id = some la →
      ((leaf, now - la) ∈ (leaves.foldl (scanLeaf now timeoutMs activeId) (m, acc)).2
        ↔ ((leaf, now - la) ∈ acc ∨ timeoutMs ≤ now - la)) := by
  intro leaves
  induction leaves with
  | nil => intro m acc _ hmem; cases hmem
  | cons x xs ih =>
    intro m acc hnd hmem hm
    rw [List.map_cons, List.nodup_cons] at hnd
    obtain ⟨hnd1, hnd2⟩ := hnd
    simp only [List.foldl_cons]
    rcases List.mem_cons.mp hmem with hleaf | hmem2
    · subst hleaf
      have hxs : leaf ∉ xs := fun hin => hnd1 (List.mem_map_of_mem Leaf.id hin)
      by_cases ht : timeoutMs ≤ now - la
      · have hstep : scanLeaf now timeoutMs activeId (m, acc) leaf
            = (m, acc ++ [(leaf, now - la)]) := by
          simp [scanLeaf, hm, hpin, hact, hla0, ht]
        rw [hstep]
        constructor
        · intro _; exact Or.inr ht
        · intro _
          exact scan_acc_mono now timeoutMs activeId xs _ _
            (List.mem_append_right _ (List.mem_singleton.mpr rfl))
      · have hstep : scanLeaf now timeoutMs activeId (m, acc) leaf = (m, acc) := by
          simp [scanLeaf, hm, hpin, hact, hla0, ht]
        rw [hstep]
        constructor
        · intro hmem3
          rcases scan_mem_cases now timeoutMs activeId xs (m, acc) _ hmem3 with h1 | ⟨hin, _, _⟩
          · exact Or.inl h1
          · exact absurd hin hxs
        · intro h
          rcases h with h1 | h2
          · exact scan_acc_mono now timeoutMs activeId xs _ _ h1
          · exact absurd h2 ht
    · have hxid : x.id ≠ leaf.id :=
        fun he => hnd1 (he ▸ List.mem_map_of_mem Leaf.id hmem2)
      have hm1 : (scanLeaf now timeoutMs activeId (m, acc) x).1 leaf.id = some la := by
        rw [scanLeaf_fst_of_ne (m, acc) x (fun h => hxid h.symm)]
        exact hm
      have hacc : ((leaf, now - la) ∈ (scanLeaf now timeoutMs activeId (m, acc) x).2)
          ↔ (leaf, now - la) ∈ acc := by
        rcases @scanLeaf_snd_cases now timeoutMs activeId (m, acc) x with h | ⟨t0, h⟩
        · rw [h]
        · rw [h]
          constructor
          · intro hh
            rcases List.mem_append.mp hh with h1 | h2
            · exact h1
            · have heq := List.mem_singleton.mp h2
              have hfst : leaf = x := congrArg Prod.fst heq
              exact absurd (congrArg Leaf.id hfst).symm hxid
          · intro h1
            exact List.mem_append_left _ h1
      have hre : xs.foldl (scanLeaf now timeoutMs activeId)
            (scanLeaf now timeoutMs activeId (m, acc) x)
          = xs.foldl (scanLeaf now timeoutMs activeId)
            ((scanLeaf now timeoutMs activeId (m, acc) x).1,
              (scanLeaf now timeoutMs activeId (m, acc) x).2) := rfl
      rw [hre, ih _ _ hnd2 hmem2 hm1, hacc]

lemma scan_untracked (now timeoutMs : Int) (activeId : Option Nat) (leaf : Leaf)
    (hpin : leaf.pinned = false) (hact : some leaf.id ≠ activeId) :
    ∀ (leaves : List Leaf) (m : AMap) (acc : List (Leaf × Int)),
      (leaves.map Leaf.id).Nodup → leaf ∈ leaves → m leaf.id = none →
      (∀ t, (leaf, t) ∉ acc) →
      (∀ t, (leaf, t) ∉ (leaves.foldl (scanLeaf now timeoutMs activeId) (m, acc)).2)
      ∧ (leaves.foldl (scanLeaf now timeoutMs activeId) (m, acc)).1 leaf.id = some now := by
  intro leaves
  induction leaves with
  | nil => intro m acc _ hmem _ _; cases hmem
  | cons x xs ih =>
    intro m acc hnd hmem hm hacc
    rw [List.map_cons, List.nodup_cons] at hnd
    obtain ⟨hnd1, hnd2⟩ := hnd
    simp only [List.foldl_cons]
    rcases List.mem_cons.mp hmem with hleaf | hmem2
    · subst hleaf
      have hxs : leaf ∉ xs := fun hin => hnd1 (List.mem_map_of_mem Leaf.id hin)
      have hstep : scanLeaf now timeoutMs activeId (m, acc) leaf
          = (m.set leaf.id now, acc) := by
        simp [scanLeaf, hm, hpin, hact]
      rw [hstep]
      constructor
      · intro t ht
        rcases scan_mem_cases now timeoutMs activeId xs (m.set leaf.id now, acc)
            (leaf, t) ht with h1 | ⟨hin, _, _⟩
        · exact hacc t h1
        · exact hxs hin
      · rw [scan_map_agree now timeoutMs activeId xs _ leaf.id hnd1]
        simp [AMap.set]
    · have hxid : x.id ≠ leaf.id :=
        fun he => hnd1 (he ▸ List.mem_map_of_mem Leaf.id hmem2)
      have hm1 : (scanLeaf now timeoutMs activeId (m, acc) x).1 leaf.id = none := by
        rw [scanLeaf_fst_of_ne (m, acc) x (fun h => hxid h.symm)]
        exact hm
      have hacc1 : ∀ t, (leaf, t) ∉ (scanLeaf now timeoutMs activeId (m, acc) x).2 := by
        intro t ht
        rcases @scanLeaf_snd_cases now timeoutMs activeId (m, acc) x with h | ⟨t0, h⟩
        · rw [h] at ht; exact hacc t ht
        · rw [h] at ht
          rcases List.mem_append.mp ht with h1 | h2
          · exact hacc t h1
          · have heq := List.mem_singleton.mp h2
            have hfst : leaf = x := congrArg Prod.fst heq
            exact hxid (congrArg Leaf.id hfst).symm
      have hre : xs.foldl (scanLeaf now timeoutMs activeId)
            (scanLeaf now timeoutMs activeId (m, acc) x)
          = xs.foldl (scanLeaf now timeoutMs activeId)
            ((scanLeaf now timeoutMs activeId (m, acc) x).1,
              (scanLeaf now timeoutMs activeId (m, acc) x).2) := rfl
      rw [hre]
      exact ih _ _ hnd2 hmem2 hm1 hacc1

/-! ## Tracking-bootstrap lemmas -/

lemma initLeafTracking_preserves (now t : Int) :
    ∀ (leaves : List Leaf) (m : AMap) (j : Nat),
      m j = some t → initLeafTracking now leaves m j = some t := by
  intro leaves
  induction leaves with
  | nil => intro m j h; simpa [initLeafTracking] using h
  | cons l ls ih =>
    intro m j h
    simp only [initLeafTracking, List.foldl_cons]
    apply ih
    cases hl : m l.id with
    | some v => simp [hl, h]
    | none =>
      have hj : j ≠ l.id := fun he => by rw [he, hl] at h; cases h
      simp [hl, AMap.set, hj, h]

lemma initLeafTracking_seeds (now : Int) :
    ∀ (leaves : List Leaf) (m : AMap) (leaf : Leaf),
      leaf ∈ leaves → m leaf.id = none →
      initLeafTracking now leaves m leaf.id = some now := by
  intro leaves
  induction leaves with
  | nil => intro m leaf hmem _; cases hmem
  | cons l ls ih =>
    intro m leaf hmem hnone
    simp only [initLeafTracking, List.foldl_cons]
    by_cases hid : l.id = leaf.id
    · have hl : m l.id = none := by rw [hid]; exact hnone
      have hval : (m.set l.id now) leaf.id = some now := by
        simp [AMap.set, hid]
      simp only [hl]
      exact initLeafTracking_preserves now now ls _ leaf.id hval
    · rcases List.mem_cons.mp hmem with hleaf | hmem2
      · exact absurd (by rw [hleaf]) hid
      · cases hl : m l.id with
        | some v => simp only [hl]; exact ih m leaf hmem2 hnone
        | none =>
          simp only [hl]
          apply ih _ leaf hmem2
          have hne : leaf.id ≠ l.id := fun h => hid h.symm
          simp [AMap.set, hne, hnone]

/-! ## Claim theorems -/

/-- C1: for every sweep, a pinned managed pane and the currently focused
managed pane are never placed in the evictable set (`leavesToClose`) and are
never closed: every member of the evictable set, and every pane the eviction
loop actually detaches, is non-pinned and distinct from the active pane. -/
theorem pinned_and_focused_never_evictable (s : AutoCloseTabsSettings)
    (loc : Locale) (wenv : WriteEnv) (now timeoutMs : Int)
    (activeId : Option Nat) (leaves : List Leaf) (m : AMap) (st : HState) :
    ((sweepScan now timeoutMs activeId leaves m).2.all
        (fun x => !x.1.pinned && decide (some x.1.id ≠ activeId))) = true
    ∧ ((checkAndCloseInactiveTabsWithResult s loc wenv now timeoutMs activeId
          leaves m st).detached.all
        (fun l => !l.pinned && decide (some l.id ≠ activeId))) = true := by
  have key : ∀ x ∈ (sweepScan now timeoutMs activeId leaves m).2,
      x.1.pinned = false ∧ some x.1.id ≠ activeId := by
    intro x hx
    rcases scan_mem_cases now timeoutMs activeId leaves (m, []) x hx with h1 | ⟨_, hp, ha⟩
    · exact absurd h1 (List.not_mem_nil x)
    · exact ⟨hp, ha⟩
  refine ⟨?_, ?_⟩
  · rw [List.all_eq_true]
    intro x hx
    obtain ⟨h1, h2⟩ := key x hx
    simp [h1, h2]
  · by_cases he : s.enabled = false
    · simp [checkAndCloseInactiveTabsWithResult, he]
    · have hexp : (checkAndCloseInactiveTabsWithResult s loc wenv now timeoutMs
            activeId leaves m st).detached
          = (closeLoop s loc wenv now
              (sweepScan now timeoutMs activeId leaves m).2 st []).2.1 := by
        simp [checkAndCloseInactiveTabsWithResult, he]
      rw [hexp, List.all_eq_true]
      intro l hl
      rcases closeLoop_det_mem s loc wenv now _ _ _ l hl with h | ⟨t, ht⟩
      · exact absurd h (List.not_mem_nil l)
      · obtain ⟨h1, h2⟩ := key (l, t) ht
        simp at h1 h2
        simp [h1, h2]

/-- C2: for every sweep, a non-pinned, non-focused pane with a recorded
(non-zero) last activity is classified evictable — placed in `leavesToClose`
with its inactive time — exactly when `now - lastActivity ≥ timeout`;
equality at the boundary is evictable, anything strictly smaller is not. -/
theorem threshold_boundary_evictable_iff (now timeoutMs la : Int)
    (activeId : Option Nat) (leaves : List Leaf) (m : AMap) (leaf : Leaf)
    (hnd : (leaves.map Leaf.id).Nodup) (hmem : leaf ∈ leaves)
    (hpin : leaf.pinned = false) (hact : some leaf.id ≠ activeId)
    (hla : m leaf.id = some la) (hla0 : la ≠ 0) :
    ((leaf, now - la) ∈ (sweepScan now timeoutMs activeId leaves m).2
      ↔ timeoutMs ≤ now - la) := by
  have h := scan_mem_iff now timeoutMs la activeId leaf hpin hact hla0
    leaves m [] hnd hmem hla
  simpa [sweepScan] using h

/-- C2 witness: one tracked stale pane at the exact boundary
(`now - lastActivity = 100 = timeout`) is evictable. -/
theorem threshold_boundary_evictable_iff_witness :
    ((([(⟨1, false, "a.md", none, false⟩ : Leaf)].map Leaf.id).Nodup
      ∧ (⟨1, false, "a.md", none, false⟩ : Leaf) ∈ [(⟨1, false, "a.md", none, false⟩ : Leaf)]
      ∧ (⟨1, false, "a.md", none, false⟩ : Leaf).pinned = false
      ∧ some (⟨1, false, "a.md", none, false⟩ : Leaf).id ≠ (none : Option Nat)
      ∧ (fun j => if j = 1 then some (100 : Int) else none)
          (⟨1, false, "a.md", none, false⟩ : Leaf).id = some 100
      ∧ (100 : Int) ≠ 0)
    ∧ (((⟨1, false, "a.md", none, false⟩ : Leaf), (200 : Int) - 100)
        ∈ (sweepScan 200 100 none [⟨1, false, "a.md", none, false⟩]
            (fun j => if j = 1 then some (100 : Int) else none)).2
      ↔ (100 : Int) ≤ 200 - 100)) :=
  ⟨⟨by decide, by decide, rfl, by decide, by decide, by decide⟩,
    threshold_boundary_evictable_iff 200 100 100 none _ _ _
      (by decide) (by decide) rfl (by decide) (by decide) (by decide)⟩

/-- C3: a non-pinned, non-focused managed pane with no prior activity record
is not evicted in the cycle that first observes it: it never enters
`leavesToClose`, it is not detached, and the sweep seeds its record to the
current instant. -/
theorem untracked_grace_period (s : AutoCloseTabsSettings) (loc : Locale)
    (wenv : WriteEnv) (now timeoutMs : Int) (activeId : Option Nat)
    (leaves : List Leaf) (m : AMap) (st : HState) (leaf : Leaf)
    (hnd : (leaves.map Leaf.id).Nodup) (hmem : leaf ∈ leaves)
    (hpin : leaf.pinned = false) (hact : some leaf.id ≠ activeId)
    (hla : m leaf.id = none) :
    (∀ t, (leaf, t) ∉ (sweepScan now timeoutMs activeId leaves m).2)
    ∧ (sweepScan now timeoutMs activeId leaves m).1 leaf.id = some now
    ∧ leaf ∉ (checkAndCloseInactiveTabsWithResult s loc wenv now timeoutMs
        activeId leaves m st).detached := by
  have h := scan_untracked now timeoutMs activeId leaf hpin hact leaves m []
    hnd hmem hla (by simp)
  refine ⟨h.1, h.2, ?_⟩
  by_cases he : s.enabled = false
  · simp [checkAndCloseInactiveTabsWithResult, he]
  · have hexp : (checkAndCloseInactiveTabsWithResult s loc wenv now timeoutMs
          activeId leaves m st).detached
        = (closeLoop s loc wenv now
            (sweepScan now timeoutMs activeId leaves m).2 st []).2.1 := by
      simp [checkAndCloseInactiveTabsWithResult, he]
    rw [hexp]
    intro hmem2
    rcases closeLoop_det_mem s loc wenv now _ _ _ leaf hmem2 with h2 | ⟨t, ht⟩
    · exact absurd h2 (List.not_mem_nil leaf)
    · exact h.1 t ht

/-- C3 witness: an untracked pane swept far beyond the timeout is neither
evictable nor detached, and its record is seeded to `now = 50`. -/
theorem untracked_grace_period_witness :
    ((([(⟨1, false, "a.md", none, false⟩ : Leaf)].map Leaf.id).Nodup
      ∧ (⟨1, false, "a.md", none, false⟩ : Leaf) ∈ [(⟨1, false, "a.md", none, false⟩ : Leaf)]
      ∧ (⟨1, false, "a.md", none, false⟩ : Leaf).pinned = false
      ∧ some (⟨1, false, "a.md", none, false⟩ : Leaf).id ≠ (none : Option Nat)
      ∧ (fun _ => (none : Option Int)) (⟨1, false, "a.md", none, false⟩ : Leaf).id = none)
    ∧ ((⟨1, false, "a.md", none, false⟩ : Leaf), (40 : Int))
        ∉ (sweepScan 50 10 none [⟨1, false, "a.md", none, false⟩] (fun _ => none)).2
    ∧ (sweepScan 50 10 none [⟨1, false, "a.md", none, false⟩] (fun _ => none)).1
        (⟨1, false, "a.md", none, false⟩ : Leaf).id = some 50
    ∧ (⟨1, false, "a.md", none, false⟩ : Leaf)
        ∉ (checkAndCloseInactiveTabsWithResult DEFAULT_SETTINGS trivLocale okWriteEnv
            50 10 none [⟨1, false, "a.md", none, false⟩] (fun _ => none)
            initialHState).detached) :=
  ⟨⟨by decide, by decide, rfl, by decide, rfl⟩,
    (untracked_grace_period DEFAULT_SETTINGS trivLocale okWriteEnv 50 10 none _ _
        initialHState _ (by decide) (by decide) rfl (by decide) rfl).1 40,
    (untracked_grace_period DEFAULT_SETTINGS trivLocale okWriteEnv 50 10 none _ _
        initialHState _ (by decide) (by decide) rfl (by decide) rfl).2.1,
    (untracked_grace_period DEFAULT_SETTINGS trivLocale okWriteEnv 50 10 none _ _
        initialHState _ (by decide) (by decide) rfl (by decide) rfl).2.2⟩

/-- C4: with `logHistory` on and a positive capacity, after any sequence of
appends from a fresh log the in-memory history is exactly the most recent
`min(appended, maxHistoryEntries)` entries in insertion order (oldest
dropped first, length never exceeding the capacity), and `getHistory`
returns them most-recent-first. -/
theorem history_fifo_trim_bound (s : AutoCloseTabsSettings) (loc : Locale)
    (wenv : WriteEnv) (hlog : s.logHistory = true)
    (hmax : 0 < s.maxHistoryEntries) (es : List ClosedTabEntry) :
    (appendAll s loc wenv es initialHState).history
        = es.drop (es.length - s.maxHistoryEntries)
    ∧ (appendAll s loc wenv es initialHState).history.length
        = min es.length s.maxHistoryEntries
    ∧ getHistory (appendAll s loc wenv es initialHState)
        = (es.drop (es.length - s.maxHistoryEntries)).reverse := by
  have h := appendAll_history loc wenv hlog hmax es initialHState
    (by simp [initialHState])
  have h1 : (appendAll s loc wenv es initialHState).history
      = es.drop (es.length - s.maxHistoryEntries) := by
    simpa [initialHState] using h
  refine ⟨h1, ?_, ?_⟩
  · rw [h1, List.length_drop]
    omega
  · rw [getHistory, h1]

/-- C4 witness: with capacity 2, appending E1, E2, E3 leaves exactly
[E2, E3] stored and `getHistory` returns [E3, E2]; E1 is gone. -/
theorem history_fifo_trim_bound_witness :
    (({ DEFAULT_SETTINGS with maxHistoryEntries := 2 }).logHistory = true
      ∧ 0 < ({ DEFAULT_SETTINGS with maxHistoryEntries := 2 }).maxHistoryEntries)
    ∧ getHistory (appendAll { DEFAULT_SETTINGS with maxHistoryEntries := 2 }
        trivLocale okWriteEnv
        [⟨1, "E1", 0, none⟩, ⟨2, "E2", 0, none⟩, ⟨3, "E3", 0, none⟩]
        initialHState)
      = [⟨3, "E3", 0, none⟩, ⟨2, "E2", 0, none⟩] :=
  ⟨⟨rfl, by decide⟩,
    (history_fifo_trim_bound { DEFAULT_SETTINGS with maxHistoryEntries := 2 }
      trivLocale okWriteEnv rfl (by decide)
      [⟨1, "E1", 0, none⟩, ⟨2, "E2", 0, none⟩, ⟨3, "E3", 0, none⟩]).2.2⟩

/-- C5 counterexample: two stale panes are both classified evictable, but a
raising `detach()` on the first aborts the loop — the second pane is neither
logged nor closed in that cycle, contradicting the claim that a destruction
failure does not prevent eviction and logging of subsequent panes. -/
theorem detach_failure_aborts_cycle_cex :
    (sweepScan 1000 10 none
        [⟨1, false, "one.md", none, true⟩, ⟨2, false, "two.md", none, false⟩]
        (fun j => if j = 1 ∨ j = 2 then some (10 : Int) else none)).2
      = [(⟨1, false, "one.md", none, true⟩, 990),
          (⟨2, false, "two.md", none, false⟩, 990)]
    ∧ (checkAndCloseInactiveTabsWithResult DEFAULT_SETTINGS trivLocale okWriteEnv
        1000 10 none
        [⟨1, false, "one.md", none, true⟩, ⟨2, false, "two.md", none, false⟩]
        (fun j => if j = 1 ∨ j = 2 then some (10 : Int) else none)
        initialHState).detached = []
    ∧ (checkAndCloseInactiveTabsWithResult DEFAULT_SETTINGS trivLocale okWriteEnv
        1000 10 none
        [⟨1, false, "one.md", none, true⟩, ⟨2, false, "two.md", none, false⟩]
        (fun j => if j = 1 ∨ j = 2 then some (10 : Int) else none)
        initialHState).err = some "detach failed"
    ∧ (checkAndCloseInactiveTabsWithResult DEFAULT_SETTINGS trivLocale okWriteEnv
        1000 10 none
        [⟨1, false, "one.md", none, true⟩, ⟨2, false, "two.md", none, false⟩]
        (fun j => if j = 1 ∨ j = 2 then some (10 : Int) else none)
        initialHState).hstate.history.map ClosedTabEntry.fileName = ["one.md"]
    ∧ ∀ e ∈ (checkAndCloseInactiveTabsWithResult DEFAULT_SETTINGS trivLocale
        okWriteEnv 1000 10 none
        [⟨1, false, "one.md", none, true⟩, ⟨2, false, "two.md", none, false⟩]
        (fun j => if j = 1 ∨ j = 2 then some (10 : Int) else none)
        initialHState).hstate.history, e.fileName ≠ "two.md" := by
  decide

/-- C5 amended: if destroying one evictable pane raises, the failed pane's
already-appended history entry is retained (not retracted), but the raise
aborts the remainder of the cycle: the preceding panes were logged and
detached, and the subsequent evictable panes are neither logged nor
closed. -/
theorem detach_failure_abort_semantics (s : AutoCloseTabsSettings)
    (loc : Locale) (wenv : WriteEnv) (now : Int) (lf : Leaf) (tf : Int)
    (hlf : lf.detachFails = true) :
    ∀ (pre post : List (Leaf × Int)) (st : HState) (det : List Leaf),
      (∀ x ∈ pre, x.1.detachFails = false) →
      closeLoop s loc wenv now (pre ++ (lf, tf) :: post) st det
        = (addEntry s loc wenv (mkEntry now lf tf)
            (appendAll s loc wenv (pre.map (fun x => mkEntry now x.1 x.2)) st),
          det ++ pre.map Prod.fst, some "detach failed") := by
  intro pre
  induction pre with
  | nil =>
    intro post st det _
    simp [closeLoop, hlf, appendAll]
  | cons x rest ih =>
    intro post st det hpre
    obtain ⟨l, t⟩ := x
    have hl : l.detachFails = false := hpre (l, t) (List.mem_cons_self _ _)
    have hrest : ∀ y ∈ rest, y.1.detachFails = false :=
      fun y hy => hpre y (List.mem_cons_of_mem _ hy)
    rw [List.cons_append]
    simp only [closeLoop, hl, if_neg (by simp : ¬ (false = true))]
    rw [ih post _ _ hrest]
    simp [appendAll]

/-- C5 amended witness: one successful eviction, then a failing one, then a
pending one: the loop stops at the failure with both processed entries
appended and only the first pane detached. -/
theorem detach_failure_abort_semantics_witness :
    ((⟨2, false, "b.md", none, true⟩ : Leaf).detachFails = true
      ∧ (∀ x ∈ [((⟨1, false, "a.md", none, false⟩ : Leaf), (5 : Int))],
          x.1.detachFails = false))
    ∧ closeLoop DEFAULT_SETTINGS trivLocale okWriteEnv 100
        ([((⟨1, false, "a.md", none, false⟩ : Leaf), (5 : Int))]
          ++ ((⟨2, false, "b.md", none, true⟩ : Leaf), (7 : Int))
            :: [((⟨3, false, "c.md", none, false⟩ : Leaf), (9 : Int))])
        initialHState []
      = (addEntry DEFAULT_SETTINGS trivLocale okWriteEnv
          (mkEntry 100 ⟨2, false, "b.md", none, true⟩ 7)
          (appendAll DEFAULT_SETTINGS trivLocale okWriteEnv
            ([((⟨1, false, "a.md", none, false⟩ : Leaf), (5 : Int))].map
              (fun x => mkEntry 100 x.1 x.2))
            initialHState),
        [] ++ [((⟨1, false, "a.md", none, false⟩ : Leaf), (5 : Int))].map Prod.fst,
        some "detach failed") :=
  ⟨⟨rfl, by decide⟩,
    detach_failure_abort_semantics DEFAULT_SETTINGS trivLocale okWriteEnv 100
      ⟨2, false, "b.md", none, true⟩ 7 rfl
      [((⟨1, false, "a.md", none, false⟩ : Leaf), (5 : Int))]
      [((⟨3, false, "c.md", none, false⟩ : Leaf), (9 : Int))]
      initialHState [] (by decide)⟩

/-- C6: with `logHistory` off, `addEntry` leaves the whole history state
unchanged — nothing stored, nothing persisted, no mirror line — while the
eviction loop still detaches every pane it was asked to close. -/
theorem addEntry_disabled_noop_eviction_proceeds (s : AutoCloseTabsSettings)
    (loc : Locale) (wenv : WriteEnv) (e : ClosedTabEntry) (st : HState)
    (hlog : s.logHistory = false) :
    addEntry s loc wenv e st = st
    ∧ ∀ (now : Int) (lst : List (Leaf × Int)) (st0 : HState) (det : List Leaf),
        (∀ x ∈ lst, x.1.detachFails = false) →
        closeLoop s loc wenv now lst st0 det
          = (st0, det ++ lst.map Prod.fst, none) := by
  refine ⟨addEntry_noop loc wenv e st hlog, ?_⟩
  intro now lst st0 det hok
  rw [closeLoop_ok s loc wenv now lst st0 det hok, appendAll_noop loc wenv hlog]

/-- C6 witness: with logging off, a concrete append is the identity and the
concrete eviction loop still detaches its pane. -/
theorem addEntry_disabled_noop_eviction_proceeds_witness :
    ({ DEFAULT_SETTINGS with logHistory := false }).logHistory = false
    ∧ addEntry { DEFAULT_SETTINGS with logHistory := false } trivLocale okWriteEnv
        ⟨1, "E1", 0, none⟩ initialHState = initialHState
    ∧ closeLoop { DEFAULT_SETTINGS with logHistory := false } trivLocale okWriteEnv
        100 [((⟨1, false, "a.md", none, false⟩ : Leaf), (5 : Int))] initialHState []
      = (initialHState,
          [] ++ [((⟨1, false, "a.md", none, false⟩ : Leaf), (5 : Int))].map Prod.fst,
          none) :=
  ⟨rfl,
    (addEntry_disabled_noop_eviction_proceeds _ trivLocale okWriteEnv
      ⟨1, "E1", 0, none⟩ initialHState rfl).1,
    (addEntry_disabled_noop_eviction_proceeds _ trivLocale okWriteEnv
      ⟨1, "E1", 0, none⟩ initialHState rfl).2 100
      [((⟨1, false, "a.md", none, false⟩ : Leaf), (5 : Int))] initialHState []
      (by decide)⟩

/-- C7: with `logToFile` on, no durable-mirror failure propagates out of
`addEntry` or undoes the in-memory update — the stored history is the
trimmed push for every mirror environment — and in the create/already-exists
race the rendered line is appended to the existing file instead of the
creation error propagating. -/
theorem mirror_failures_isolated_race_appends (s : AutoCloseTabsSettings)
    (loc : Locale) (wenv : WriteEnv) (e : ClosedTabEntry) (st : HState)
    (hlog : s.logHistory = true) (hmax : 0 < s.maxHistoryEntries) :
    (addEntry s loc wenv e st).history
      = (st.history ++ [e]).drop ((st.history.length + 1) - s.maxHistoryEntries)
    ∧ (∀ msg, wenv.existsAtLookup = false →
        wenv.createResult = Except.error msg →
        strIncludes msg "already exists" = true →
        wenv.relookupFinds = true →
        wenv.appendAfterRaceResult = Except.ok () →
        (writeToFileBody wenv (renderLine loc e)
            (mirrorHeader ++ renderLine loc e)).2 = none
        ∧ MirrorEv.appended (renderLine loc e)
            ∈ writeToFile wenv (renderLine loc e)
              (mirrorHeader ++ renderLine loc e)) := by
  refine ⟨addEntry_history loc wenv e st hlog hmax, ?_⟩
  intro msg h1 h2 h3 h4 h5
  constructor
  · simp [writeToFileBody, h1, h2, h3, h4, h5]
  · simp [writeToFile, writeToFileBody, h1, h2, h3, h4, h5]

/-- C7 witness: under `raceEnv` (lookup misses, create fails with "already
exists", re-lookup finds the file, append succeeds) the line is appended,
no error escapes the body, and the in-memory history still gained the
entry. -/
theorem mirror_failures_isolated_race_appends_witness :
    (DEFAULT_SETTINGS.logHistory = true
      ∧ 0 < DEFAULT_SETTINGS.maxHistoryEntries
      ∧ raceEnv.existsAtLookup = false
      ∧ raceEnv.createResult = Except.error "File already exists"
      ∧ strIncludes "File already exists" "already exists" = true
      ∧ raceEnv.relookupFinds = true
      ∧ raceEnv.appendAfterRaceResult = Except.ok ())
    ∧ (addEntry DEFAULT_SETTINGS trivLocale raceEnv ⟨1, "E1", 0, none⟩
          initialHState).history
        = ((initialHState.history ++ [(⟨1, "E1", 0, none⟩ : ClosedTabEntry)]).drop
            ((initialHState.history.length + 1) - DEFAULT_SETTINGS.maxHistoryEntries))
    ∧ (writeToFileBody raceEnv (renderLine trivLocale ⟨1, "E1", 0, none⟩)
        (mirrorHeader ++ renderLine trivLocale ⟨1, "E1", 0, none⟩)).2 = none
    ∧ MirrorEv.appended (renderLine trivLocale ⟨1, "E1", 0, none⟩)
        ∈ writeToFile raceEnv (renderLine trivLocale ⟨1, "E1", 0, none⟩)
          (mirrorHeader ++ renderLine trivLocale ⟨1, "E1", 0, none⟩) :=
  ⟨⟨rfl, by decide, rfl, rfl, by decide, rfl, rfl⟩,
    (mirror_failures_isolated_race_appends DEFAULT_SETTINGS trivLocale raceEnv
      ⟨1, "E1", 0, none⟩ initialHState rfl (by decide)).1,
    ((mirror_failures_isolated_race_appends DEFAULT_SETTINGS trivLocale raceEnv
      ⟨1, "E1", 0, none⟩ initialHState rfl (by decide)).2 "File already exists"
      rfl rfl (by decide) rfl rfl).1,
    ((mirror_failures_isolated_race_appends DEFAULT_SETTINGS trivLocale raceEnv
      ⟨1, "E1", 0, none⟩ initialHState rfl (by decide)).2 "File already exists"
      rfl rfl (by decide) rfl rfl).2⟩

/-- C8: for a fixed stored entry sequence, `exportHistory` is deterministic
and read-only: the method call leaves the state (in particular the stored
insertion order) unchanged, and calling it twice in succession yields the
identical string. -/
theorem export_deterministic_and_readonly (loc : Locale) (st : HState) :
    (exportHistoryRun loc st).1 = st
    ∧ (exportHistoryRun loc ((exportHistoryRun loc st).1)).2
        = (exportHistoryRun loc st).2
    ∧ ((exportHistoryRun loc st).1).history = st.history :=
  ⟨rfl, rfl, rfl⟩

/-- C9 (code evaluated at the failing input): with the default settings
running and the periodic timer registered, typing `5` into the inactive
timeout field updates the setting to 5 but does not restart the schedule —
the one running timer is untouched and still carries the closure-captured
old `inactiveTimeoutMs = 86400000`, and no timer carries the new
`5 * 60 * 1000`. -/
theorem timeout_change_leaves_stale_timer :
    timeoutChangeAfter.1.inactiveTimeoutMinutes = 5
    ∧ timeoutChangeAfter.2.2.2.timers = [⟨0, 60000, 86400000⟩]
    ∧ timeoutChangeAfter.2.2.2 = timeoutChangeStart.2.2
    ∧ timeoutChangeAfter.2.2.1 = timeoutChangeStart.2.1
    ∧ ∀ tmr ∈ timeoutChangeAfter.2.2.2.timers, tmr.timeoutMs ≠ 5 * 60 * 1000 := by
  decide

/-- C10: starting or restarting the tab manager never overwrites an existing
activity record — `initializeLeafTracking` (and therefore the restart path
`updateSettings`) keeps every tracked pane's previous instant — while panes
with no record are seeded to the current instant. -/
theorem init_preserves_existing_records (s : AutoCloseTabsSettings)
    (now t : Int) (leaves : List Leaf) (m : AMap) (tm : TMState) (w : Sched)
    (j : Nat) (leaf : Leaf) (hrec : m j = some t) :
    initLeafTracking now leaves m j = some t
    ∧ (updateSettings s now leaves m tm w).1 j = some t
    ∧ (leaf ∈ leaves → m leaf.id = none →
        initLeafTracking now leaves m leaf.id = some now) := by
  refine ⟨initLeafTracking_preserves now t leaves m j hrec, ?_, ?_⟩
  · have hm : (updateSettings s now leaves m tm w).1 = initLeafTracking now leaves m := rfl
    rw [hm]
    exact initLeafTracking_preserves now t leaves m j hrec
  · intro h1 h2
    exact initLeafTracking_seeds now leaves m leaf h1 h2

/-- C10 witness: restarting over one tracked pane (record 7) and one
untracked pane keeps the old record and seeds only the untracked one. -/
theorem init_preserves_existing_records_witness :
    ((fun j => if j = 1 then some (7 : Int) else none : AMap) 1 = some 7)
    ∧ initLeafTracking 50
        [(⟨1, false, "a.md", none, false⟩ : Leaf), ⟨2, false, "b.md", none, false⟩]
        (fun j => if j = 1 then some (7 : Int) else none) 1 = some 7
    ∧ (updateSettings DEFAULT_SETTINGS 50
        [(⟨1, false, "a.md", none, false⟩ : Leaf), ⟨2, false, "b.md", none, false⟩]
        (fun j => if j = 1 then some (7 : Int) else none) ⟨some 0⟩ ⟨1, [⟨0, 60000, 86400000⟩]⟩).1
        1 = some 7
    ∧ ((⟨2, false, "b.md", none, false⟩ : Leaf)
          ∈ [(⟨1, false, "a.md", none, false⟩ : Leaf), ⟨2, false, "b.md", none, false⟩] →
        (fun j => if j = 1 then some (7 : Int) else none : AMap)
            (⟨2, false, "b.md", none, false⟩ : Leaf).id = none →
        initLeafTracking 50
          [(⟨1, false, "a.md", none, false⟩ : Leaf), ⟨2, false, "b.md", none, false⟩]
          (fun j => if j = 1 then some (7 : Int) else none)
          (⟨2, false, "b.md", none, false⟩ : Leaf).id = some 50) :=
  ⟨by decide,
    (init_preserves_existing_records DEFAULT_SETTINGS 50 7
      [(⟨1, false, "a.md", none, false⟩ : Leaf), ⟨2, false, "b.md", none, false⟩]
      (fun j => if j = 1 then some (7 : Int) else none) ⟨some 0⟩
      ⟨1, [⟨0, 60000, 86400000⟩]⟩ 1 ⟨2, false, "b.md", none, false⟩ (by decide)).1,
    (init_preserves_existing_records DEFAULT_SETTINGS 50 7
      [(⟨1, false, "a.md", none, false⟩ : Leaf), ⟨2, false, "b.md", none, false⟩]
      (fun j => if j = 1 then some (7 : Int) else none) ⟨some 0⟩
      ⟨1, [⟨0, 60000, 86400000⟩]⟩ 1 ⟨2, false, "b.md", none, false⟩ (by decide)).2.1,
    (init_preserves_existing_records DEFAULT_SETTINGS 50 7
      [(⟨1, false, "a.md", none, false⟩ : Leaf), ⟨2, false, "b.md", none, false⟩]
      (fun j => if j = 1 then some (7 : Int) else none) ⟨some 0⟩
      ⟨1, [⟨0, 60000, 86400000⟩]⟩ 1 ⟨2, false, "b.md", none, false⟩ (by decide)).2.2⟩

end AutoCloseTabs
